import Mathlib

/-!
# Verification of the pytop acquisition/reconciliation core

Shallow embedding of the pytop repository (src/pytop/models.py,
src/pytop/monitor.py, src/pytop/app.py) in Lean 4, together with theorems
settling the specification claims about it.

Modelling conventions:
* Python `float` values that the code only compares, clamps, or divides by
  powers of two are modelled as `ℚ`.
* Python `None` is modelled by `Option`; Python truthiness tests
  (`x or default`) are modelled by explicit helpers below.
* The thread-safe `queue.Queue` is modelled as a `List` (front = oldest),
  `put` appending at the back, `get_nowait` taking from the front.
* Stateful methods become pure state-transformer functions; the background
  worker's poll loop becomes a fold over the per-cycle inputs it would read
  from the operating system.
-/

namespace Pytop

/-- Python truthiness fallback `v or d` for an optional string:
`None` and the empty string are falsy. -/
def pyOrStr (v : Option String) (d : String) : String :=
  match v with
  | none => d
  | some s => if s = "" then d else s

/-- Python truthiness fallback `v or d` for an optional rational (float):
`None` and `0.0` are falsy. -/
def pyOrQ (v : Option ℚ) (d : ℚ) : ℚ :=
  match v with
  | none => d
  | some x => if x = 0 then d else x

/-- Python truthiness fallback `v or d` for an optional integer:
`None` and `0` are falsy. -/
def pyOrInt (v : Option Int) (d : Int) : Int :=
  match v with
  | none => d
  | some x => if x = 0 then d else x

/-- `ProcessSnapshot` from src/pytop/models.py.  The dataclass annotates
`command_line : str`, but Python does not enforce annotations: the collector
in monitor.py can store `None` there (see `buildSnapshot`), so the field is
embedded as `Option String`, with `none` standing for Python `None`. -/
structure ProcessSnapshot where
  pid : Int
  name : String
  username : String
  status : String
  cpu_percent : ℚ
  memory_percent : ℚ
  memory_rss : Int
  threads : Int
  nice : Int
  command_line : Option String
deriving DecidableEq

/-- The per-process attribute dictionary `proc.info` produced by
`psutil.process_iter(attrs=[...])` in `SystemMonitor._collect_processes`.
Every requested attribute key is present; an attribute whose retrieval
failed is `None` (psutil's `ad_value`), hence `Option` fields.  The pid is
always known for an enumerated process. -/
structure ProcInfo where
  pid : Int
  name : Option String
  username : Option String
  status : Option String
  cpu_percent : Option ℚ
  memory_percent : Option ℚ
  memory_info : Option Int
  num_threads : Option Int
  nice : Option Int
  cmdline : Option (List String)
deriving DecidableEq

/-- Body of the `try` block in `SystemMonitor._collect_processes`
(monitor.py lines 170-194): assemble one `ProcessSnapshot` from `proc.info`,
applying the code's defaults for missing data.  `memory_info` models
`mem_info.rss if mem_info else 0`; `command_line` models
`" ".join(cmdline) if cmdline else info.get("name", "")`, whose fallback is
the raw (possibly `None`) name attribute. -/
def buildSnapshot (info : ProcInfo) : ProcessSnapshot :=
  let cmdline := info.cmdline.getD []
  { pid := info.pid
    name := pyOrStr info.name ""
    username := pyOrStr info.username ""
    status := pyOrStr info.status "?"
    cpu_percent := pyOrQ info.cpu_percent 0
    memory_percent := pyOrQ info.memory_percent 0
    memory_rss := match info.memory_info with | some rss => rss | none => 0
    threads := pyOrInt info.num_threads 0
    nice := pyOrInt info.nice 0
    command_line :=
      if cmdline.isEmpty then info.name
      else some (String.intercalate " " cmdline) }

/-- The psutil exceptions caught by `SystemMonitor._collect_processes`. -/
inductive PsutilError
  | NoSuchProcess
  | AccessDenied
  | ZombieProcess
deriving DecidableEq

/-- `SystemMonitor._collect_processes` (monitor.py lines 144-201): iterate
over the enumerated processes; a per-process query either yields its `info`
dictionary or raises one of the caught psutil errors, in which case the
process is skipped (`continue`) and the loop keeps going. -/
def collectProcesses : List (Except PsutilError ProcInfo) → List ProcessSnapshot
  | [] => []
  | Except.ok info :: rest => buildSnapshot info :: collectProcesses rest
  | Except.error _ :: rest => collectProcesses rest

/-- `SystemSnapshot` from src/pytop/monitor.py. -/
structure SystemSnapshot where
  cpu_percent_per_core : List ℚ
  memory_total : Int
  memory_used : Int
  memory_percent : ℚ
  swap_total : Int
  swap_used : Int
  swap_percent : ℚ
  load_avg : ℚ × ℚ × ℚ
  uptime_seconds : ℚ
  processes : List ProcessSnapshot
deriving DecidableEq

/-- The data one poll cycle reads from the operating system through psutil:
system-wide counters plus, for each enumerated process, either its attribute
dictionary or the psutil error its query raised. -/
structure CycleEnv where
  cpuPercents : List ℚ
  memTotal : Int
  memUsed : Int
  memPercent : ℚ
  swapTotal : Int
  swapUsed : Int
  swapPercent : ℚ
  loadAvg : ℚ × ℚ × ℚ
  now : ℚ
  bootTime : ℚ
  procResults : List (Except PsutilError ProcInfo)

/-- State of a `SystemMonitor` object (monitor.py).  `queue` is the
`queue.Queue` passed to the constructor (front = oldest element);
`thread` is `_thread` — `none` for Python `None`, `some alive` for a
`threading.Thread` whose `is_alive()` currently returns `alive`;
`orphan_alive` records whether a worker whose handle was dropped by
`stop()` is still running (observable through the OS, not through the
object's fields). -/
structure SystemMonitor where
  queue : List SystemSnapshot
  poll_rate : ℚ
  stop_set : Bool
  thread : Option Bool
  cpu_history : List (List ℚ)
  orphan_alive : Bool

/-- `SystemMonitor.__init__` (monitor.py lines 38-56): stores the queue and
the poll rate as given — no clamping happens here — with no thread and an
empty history. -/
def SystemMonitor.init (update_queue : List SystemSnapshot) (poll_rate : ℚ) :
    SystemMonitor :=
  { queue := update_queue
    poll_rate := poll_rate
    stop_set := false
    thread := none
    cpu_history := []
    orphan_alive := false }

/-- The `poll_rate` property setter (monitor.py lines 63-66):
`self._poll_rate = max(0.1, value)`. -/
def SystemMonitor.setPollRate (m : SystemMonitor) (value : ℚ) : SystemMonitor :=
  { m with poll_rate := max (1/10) value }

/-- `SystemMonitor.is_running` (monitor.py lines 68-71):
`self._thread is not None and self._thread.is_alive()`. -/
def SystemMonitor.is_running (m : SystemMonitor) : Bool :=
  match m.thread with
  | none => false
  | some alive => alive

/-- `SystemMonitor.start` (monitor.py lines 73-84): a no-op when already
running, otherwise clear the stop event and spawn a live worker thread. -/
def SystemMonitor.start (m : SystemMonitor) : SystemMonitor :=
  if m.is_running then m
  else { m with stop_set := false, thread := some true }

/-- `SystemMonitor.stop` (monitor.py lines 86-96): set the stop event, join
the thread with a timeout, then unconditionally set `_thread = None`.
`joined` says whether the worker actually exited within the timeout; when it
did not, the still-running worker loses its handle and becomes an orphan. -/
def SystemMonitor.stop (joined : Bool) (m : SystemMonitor) : SystemMonitor :=
  let m1 := { m with stop_set := true }
  match m1.thread with
  | none => m1
  | some alive =>
    if joined then { m1 with thread := none }
    else { m1 with thread := none, orphan_alive := m1.orphan_alive || alive }

/-- Whether any worker thread spawned by this monitor is still alive —
the handle-held one or an orphan left behind by a timed-out `stop`. -/
def SystemMonitor.workerAlive (m : SystemMonitor) : Bool :=
  (match m.thread with | none => false | some alive => alive) || m.orphan_alive

/-- Environment step: the worker observes the stop event at a loop boundary
and exits; only possible once the stop event is set, since the loop body
swallows every exception and otherwise loops forever. -/
def SystemMonitor.workerExit (m : SystemMonitor) : SystemMonitor :=
  if m.stop_set then
    { m with thread := m.thread.map (fun _ => false), orphan_alive := false }
  else m

/-- `deque(maxlen=60).append(sample)` on `_cpu_history` (monitor.py line 54,
appended at line 115): append on the right, evicting from the left when the
buffer is at capacity 60. -/
def pushHistory (buf : List (List ℚ)) (sample : List ℚ) : List (List ℚ) :=
  let b := buf ++ [sample]
  b.drop (b.length - 60)

/-- `SystemMonitor.get_cpu_history` (monitor.py lines 203-205):
`list(self._cpu_history)`, a copy of the deque's contents oldest-first. -/
def SystemMonitor.get_cpu_history (m : SystemMonitor) : List (List ℚ) :=
  m.cpu_history

/-- `Queue.put` on the unbounded `queue.Queue`: append at the back.  The
queue has no capacity bound and never overwrites. -/
def queuePut (q : List SystemSnapshot) (s : SystemSnapshot) :
    List SystemSnapshot :=
  q ++ [s]

/-- `SystemMonitor._collect_snapshot` (monitor.py lines 111-142): read the
system-wide counters, append the CPU sample to the history deque, collect
the per-process snapshots, and assemble the `SystemSnapshot`. -/
def SystemMonitor.collectSnapshot (m : SystemMonitor) (env : CycleEnv) :
    SystemSnapshot × SystemMonitor :=
  let snap : SystemSnapshot :=
    { cpu_percent_per_core := env.cpuPercents
      memory_total := env.memTotal
      memory_used := env.memUsed
      memory_percent := env.memPercent
      swap_total := env.swapTotal
      swap_used := env.swapUsed
      swap_percent := env.swapPercent
      load_avg := env.loadAvg
      uptime_seconds := env.now - env.bootTime
      processes := collectProcesses env.procResults }
  (snap, { m with cpu_history := pushHistory m.cpu_history env.cpuPercents })

/-- One iteration of the `while` body of `SystemMonitor._poll_loop`
(monitor.py lines 98-109): collect a snapshot, put it on the queue, then
wait `self._poll_rate` seconds (the wait is a pure delay and does not change
the state).  Collection is total in the model — per-process failures are
already absorbed inside `collectProcesses` — so the `except` clause of the
loop body has nothing to catch and the iteration always completes. -/
def SystemMonitor.pollStep (m : SystemMonitor) (env : CycleEnv) :
    SystemMonitor :=
  let (snap, m1) := m.collectSnapshot env
  { m1 with queue := queuePut m1.queue snap }

/-- The successive iterations of `SystemMonitor._poll_loop` executed before
the stop event is observed, one per element of `envs`. -/
def SystemMonitor.pollLoop (m : SystemMonitor) (envs : List CycleEnv) :
    SystemMonitor :=
  envs.foldl SystemMonitor.pollStep m

/-- `format_bytes` loop body (app.py lines 23-29), with the numeric
formatting of the f-string elided: walk the unit list, dividing by 1024 and
escalating to the next unit while the value is at least 1024; fall through
to petabytes after the list is exhausted. -/
def formatBytesGo : List String → ℚ → ℚ × String
  | [], size => (size, "P")
  | unit :: rest, size =>
    if size < 1024 then (size, unit) else formatBytesGo rest (size / 1024)

/-- `format_bytes` (app.py lines 23-29) as value-and-unit. -/
def format_bytes (size : Int) : ℚ × String :=
  formatBytesGo ["B", "K", "M", "G", "T"] (size : ℚ)

/-- `SortKey` enum (app.py lines 14-20), members in declaration order. -/
inductive SortKey
  | CPU
  | MEM
  | PID
  | USER
deriving DecidableEq

/-- `list(SortKey)`: the enum members in declaration order. -/
def sortKeys : List SortKey := [SortKey.CPU, SortKey.MEM, SortKey.PID, SortKey.USER]

/-- The `key_func` table of `ProcessTable._sort_processes` (app.py lines
231-236) turned into a comparison: `sortKeyLe k a b` says the sort key of
`a` is at most that of `b`.  CPU and MEM compare the percentages, PID the
pid, USER the lowercased username (`p.username.lower()`). -/
def sortKeyLe (k : SortKey) (a b : ProcessSnapshot) : Bool :=
  match k with
  | SortKey.CPU => decide (a.cpu_percent ≤ b.cpu_percent)
  | SortKey.MEM => decide (a.memory_percent ≤ b.memory_percent)
  | SortKey.PID => decide (a.pid ≤ b.pid)
  | SortKey.USER => decide (a.username.toLower ≤ b.username.toLower)

/-- `ProcessTable._sort_processes` (app.py lines 229-237):
`sorted(processes, key=key_func[self._sort_key], reverse=self._sort_reverse)`.
Python's `sorted` is a stable sort; `reverse=True` sorts as if each
comparison were reversed while keeping ties in input order, which is exactly
a stable merge sort under the flipped comparison. -/
def sortProcesses (k : SortKey) (rev : Bool) (ps : List ProcessSnapshot) :
    List ProcessSnapshot :=
  ps.mergeSort (fun a b => if rev then sortKeyLe k b a else sortKeyLe k a b)

/-- State of a `ProcessTable` widget (app.py lines 142-157): the rendered
`DataTable` rows keyed by `str(pid)` (cell formatting elided — a row stores
the `ProcessSnapshot` it displays), the tracked `_current_pids` set, and the
sort state. -/
structure TableState where
  table : List (String × ProcessSnapshot)
  current_pids : Finset Int
  sort_key : SortKey
  sort_reverse : Bool

/-- A fresh `ProcessTable` (app.py lines 152-157): no rows, no tracked pids,
sort key CPU, descending. -/
def initTable : TableState :=
  { table := [], current_pids := ∅, sort_key := SortKey.CPU, sort_reverse := true }

/-- `ProcessTable.cycle_sort` (app.py lines 164-172): advance to the next
key in `list(SortKey)` cyclically, derive the direction from the new key
(descending exactly for CPU and MEM), and return the new key. -/
def cycle_sort (st : TableState) : SortKey × TableState :=
  let keys := sortKeys
  let current_index := keys.indexOf st.sort_key
  let next_index := (current_index + 1) % keys.length
  let next := keys.getD next_index SortKey.CPU
  (next,
   { st with
     sort_key := next
     sort_reverse := next == SortKey.CPU || next == SortKey.MEM })

/-- `DataTable.remove_row` wrapped in `try/except` (app.py lines 210-214):
remove the row with the given key; a missing key raises, which is swallowed,
so it is a no-op. -/
def removeRow (t : List (String × ProcessSnapshot)) (key : String) :
    List (String × ProcessSnapshot) :=
  t.eraseP (fun r => r.1 == key)

/-- `ProcessTable._update_row` (app.py lines 239-252): overwrite the cells
of the row with the given key; a missing key raises inside `update_cell`,
which is swallowed, so it is a no-op. -/
def updateRow (t : List (String × ProcessSnapshot)) (key : String)
    (p : ProcessSnapshot) : List (String × ProcessSnapshot) :=
  t.map (fun r => if r.1 == key then (r.1, p) else r)

/-- `ProcessTable._add_row` (app.py lines 254-270): append a new row with
the given key; a duplicate key raises, which is swallowed, so it is a
no-op. -/
def addRow (t : List (String × ProcessSnapshot)) (key : String)
    (p : ProcessSnapshot) : List (String × ProcessSnapshot) :=
  if (t.lookup key).isSome then t else t ++ [(key, p)]

/-- The row operations `ProcessTable.update_processes` performs against the
`DataTable`, recorded for observation. -/
inductive RowOp
  | removal (pid : Int)
  | update (p : ProcessSnapshot)
  | insertion (p : ProcessSnapshot)
deriving DecidableEq

/-- The second loop of `ProcessTable.update_processes` (app.py lines
217-225): walk the sorted incoming processes; a pid already tracked gets its
row updated in place, any other pid gets a freshly inserted row.  Returns
the final table together with the trace of operations performed. -/
def procLoop (prev : Finset Int) :
    List (String × ProcessSnapshot) → List ProcessSnapshot →
    List (String × ProcessSnapshot) × List RowOp
  | t, [] => (t, [])
  | t, p :: rest =>
    if p.pid ∈ prev then
      let r := procLoop prev (updateRow t (toString p.pid) p) rest
      (r.1, RowOp.update p :: r.2)
    else
      let r := procLoop prev (addRow t (toString p.pid) p) rest
      (r.1, RowOp.insertion p :: r.2)

/-- `ProcessTable.update_processes` (app.py lines 194-227): sort the
incoming list, delete the rows of `_current_pids - new_pids`, update or
insert a row per incoming process, and set `_current_pids = new_pids`.
Python iterates the removal set in unspecified order; the model iterates it
in ascending pid order.  Returns the new widget state and the trace of row
operations. -/
def update_processes (st : TableState) (processes : List ProcessSnapshot) :
    TableState × List RowOp :=
  let sortedP := sortProcesses st.sort_key st.sort_reverse processes
  let new_pids : Finset Int := (sortedP.map (fun p => p.pid)).toFinset
  let pids_to_remove := st.current_pids \ new_pids
  let removeList := pids_to_remove.sort (· ≤ ·)
  let t1 := removeList.foldl (fun t pid => removeRow t (toString pid)) st.table
  let r := procLoop st.current_pids t1 sortedP
  ({ st with table := r.1, current_pids := new_pids },
   removeList.map RowOp.removal ++ r.2)

/-- The pids removed in a trace of row operations. -/
def removalPids (ops : List RowOp) : List Int :=
  ops.filterMap (fun o => match o with | RowOp.removal p => some p | _ => none)

/-- The processes whose rows were updated in a trace of row operations. -/
def updatedProcs (ops : List RowOp) : List ProcessSnapshot :=
  ops.filterMap (fun o => match o with | RowOp.update p => some p | _ => none)

/-- The processes whose rows were inserted in a trace of row operations. -/
def insertedProcs (ops : List RowOp) : List ProcessSnapshot :=
  ops.filterMap (fun o => match o with | RowOp.insertion p => some p | _ => none)

/-- State of the `PytopApp` consumer: the shared queue, the header widget's
last rendered snapshot (`none` before the first render), and the process
table widget. -/
structure AppState where
  queue : List SystemSnapshot
  header : Option SystemSnapshot
  table : TableState

/-- `PytopApp._update_ui` (app.py lines 346-362): render the snapshot into
the header stats and reconcile the process table against its processes. -/
def updateUI (st : AppState) (snap : SystemSnapshot) : AppState :=
  { st with
    header := some snap
    table := (update_processes st.table snap.processes).1 }

/-- The drain loop of `PytopApp._check_for_updates` (app.py lines 333-338):
`get_nowait` in a loop until `Empty`, keeping the last value obtained. -/
def drainLoop (snapshot : Option SystemSnapshot) :
    List SystemSnapshot → Option SystemSnapshot
  | [] => snapshot
  | s :: rest => drainLoop (some s) rest

/-- `PytopApp._check_for_updates` (app.py lines 329-344): drain the queue
keeping only the most recent snapshot; if one was obtained, render it,
otherwise leave the UI untouched. -/
def checkForUpdates (st : AppState) : AppState :=
  match drainLoop none st.queue with
  | none => { st with queue := [] }
  | some snap => updateUI { st with queue := [] } snap

/-! ## Concrete inputs used by witnesses and counterexamples -/

/-- A poll-cycle environment with no visible processes and zeroed counters,
used as a concrete input. -/
def trivialEnv : CycleEnv :=
  { cpuPercents := [], memTotal := 0, memUsed := 0, memPercent := 0,
    swapTotal := 0, swapUsed := 0, swapPercent := 0, loadAvg := (0, 0, 0),
    now := 0, bootTime := 0, procResults := [] }

/-- The monitor state reached by `start()` followed by `stop(timeout)`
where the timeout elapses while the worker is still finishing its current
cycle: `stop` sets `_thread = None` anyway, orphaning the live worker. -/
def stoppedLate : SystemMonitor :=
  SystemMonitor.stop false (SystemMonitor.start (SystemMonitor.init [] 2))

/-- A process-attribute dictionary in which every fallible attribute query
failed (every value is `None`), used as a concrete input. -/
def blankInfo : ProcInfo :=
  { pid := 1, name := none, username := none, status := none,
    cpu_percent := none, memory_percent := none, memory_info := none,
    num_threads := none, nice := none, cmdline := none }

/-- Concrete process with pid 100 for the reconciliation scenario. -/
def proc100 : ProcessSnapshot :=
  { pid := 100, name := "a", username := "alice", status := "R",
    cpu_percent := 5, memory_percent := 1, memory_rss := 1000, threads := 1,
    nice := 0, command_line := some "a" }

/-- Concrete process with pid 200 for the reconciliation scenario. -/
def proc200 : ProcessSnapshot :=
  { pid := 200, name := "b", username := "bob", status := "S",
    cpu_percent := 3, memory_percent := 2, memory_rss := 2000, threads := 2,
    nice := 0, command_line := some "b" }

/-- Concrete process with pid 300 for the reconciliation scenario. -/
def proc300 : ProcessSnapshot :=
  { pid := 300, name := "c", username := "carol", status := "S",
    cpu_percent := 1, memory_percent := 3, memory_rss := 3000, threads := 3,
    nice := 0, command_line := some "c" }

/-- The table state tracking pids 100 and 200, reached by reconciling a
fresh table with snapshot A = with pids 100 and 200. -/
def tableA : TableState := (update_processes initTable [proc100, proc200]).1

/-! ## Helper lemmas -/

lemma sortKeyLe_trans (k : SortKey) (a b c : ProcessSnapshot) :
    sortKeyLe k a b = true → sortKeyLe k b c = true → sortKeyLe k a c = true := by
  cases k <;> simp only [sortKeyLe, decide_eq_true_eq] <;> exact le_trans

lemma sortKeyLe_total (k : SortKey) (a b : ProcessSnapshot) :
    (sortKeyLe k a b || sortKeyLe k b a) = true := by
  cases k <;> simp only [sortKeyLe, Bool.or_eq_true, decide_eq_true_eq] <;>
    exact le_total _ _

lemma sortProcesses_perm (k : SortKey) (rev : Bool) (ps : List ProcessSnapshot) :
    (sortProcesses k rev ps).Perm ps :=
  List.mergeSort_perm ps _

lemma sortProcesses_sorted (k : SortKey) (rev : Bool) (ps : List ProcessSnapshot) :
    (sortProcesses k rev ps).Pairwise
      (fun a b => (if rev then sortKeyLe k b a else sortKeyLe k a b) = true) := by
  apply List.sorted_mergeSort
  · intro a b c h1 h2
    cases rev
    · simp only [if_neg Bool.false_ne_true] at h1 h2 ⊢
      exact sortKeyLe_trans k a b c h1 h2
    · simp only [if_pos rfl] at h1 h2 ⊢
      exact sortKeyLe_trans k c b a h2 h1
  · intro a b
    cases rev
    · simp only [if_neg Bool.false_ne_true]
      exact sortKeyLe_total k a b
    · simp only [if_pos rfl]
      rw [Bool.or_comm]
      exact sortKeyLe_total k a b

lemma perm_toFinset {α : Type} [DecidableEq α] {l₁ l₂ : List α} (h : l₁.Perm l₂) :
    l₁.toFinset = l₂.toFinset := by
  ext a
  simp [List.mem_toFinset, h.mem_iff]

lemma procLoop_trace (prev : Finset Int) (l : List ProcessSnapshot) :
    ∀ t, (procLoop prev t l).2
      = l.map (fun p => if p.pid ∈ prev then RowOp.update p else RowOp.insertion p) := by
  induction l with
  | nil => intro t; rfl
  | cons p rest ih =>
    intro t
    by_cases hp : p.pid ∈ prev
    · simp [procLoop, hp, ih]
    · simp [procLoop, hp, ih]

lemma removalPids_map_removal (l : List Int) :
    removalPids (l.map RowOp.removal) = l := by
  induction l with
  | nil => rfl
  | cons x rest ih => simpa [removalPids, List.filterMap_cons] using ih

lemma removalPids_of_trace (prev : Finset Int) (l : List ProcessSnapshot) :
    removalPids
        (l.map (fun p => if p.pid ∈ prev then RowOp.update p else RowOp.insertion p))
      = [] := by
  induction l with
  | nil => rfl
  | cons p rest ih =>
    by_cases hp : p.pid ∈ prev <;>
      simp [removalPids, List.filterMap_cons, hp] at ih ⊢ <;> exact ih

lemma updatedProcs_map_removal (l : List Int) :
    updatedProcs (l.map RowOp.removal) = [] := by
  induction l with
  | nil => rfl
  | cons x rest ih => simp [updatedProcs, List.filterMap_cons, ih]

lemma updatedProcs_of_trace (prev : Finset Int) (l : List ProcessSnapshot) :
    updatedProcs
        (l.map (fun p => if p.pid ∈ prev then RowOp.update p else RowOp.insertion p))
      = l.filter (fun p => decide (p.pid ∈ prev)) := by
  induction l with
  | nil => rfl
  | cons p rest ih =>
    by_cases hp : p.pid ∈ prev <;>
      simp [updatedProcs, List.filterMap_cons, List.filter_cons, hp] at ih ⊢ <;>
      exact ih

lemma insertedProcs_map_removal (l : List Int) :
    insertedProcs (l.map RowOp.removal) = [] := by
  induction l with
  | nil => rfl
  | cons x rest ih => simp [insertedProcs, List.filterMap_cons, ih]

lemma insertedProcs_of_trace (prev : Finset Int) (l : List ProcessSnapshot) :
    insertedProcs
        (l.map (fun p => if p.pid ∈ prev then RowOp.update p else RowOp.insertion p))
      = l.filter (fun p => !decide (p.pid ∈ prev)) := by
  induction l with
  | nil => rfl
  | cons p rest ih =>
    by_cases hp : p.pid ∈ prev <;>
      simp [insertedProcs, List.filterMap_cons, List.filter_cons, hp] at ih ⊢ <;>
      exact ih

lemma removalPids_append (a b : List RowOp) :
    removalPids (a ++ b) = removalPids a ++ removalPids b := by
  simp [removalPids]

lemma updatedProcs_append (a b : List RowOp) :
    updatedProcs (a ++ b) = updatedProcs a ++ updatedProcs b := by
  simp [updatedProcs]

lemma insertedProcs_append (a b : List RowOp) :
    insertedProcs (a ++ b) = insertedProcs a ++ insertedProcs b := by
  simp [insertedProcs]

lemma update_processes_ops (st : TableState) (procs : List ProcessSnapshot) :
    (update_processes st procs).2
      = ((st.current_pids \
            ((sortProcesses st.sort_key st.sort_reverse procs).map
              (fun p => p.pid)).toFinset).sort (· ≤ ·)).map RowOp.removal
        ++ (sortProcesses st.sort_key st.sort_reverse procs).map
            (fun p => if p.pid ∈ st.current_pids then RowOp.update p else RowOp.insertion p) := by
  simp only [update_processes]
  rw [procLoop_trace]

lemma update_processes_pids (st : TableState) (procs : List ProcessSnapshot) :
    ((update_processes st procs).1).current_pids
      = ((sortProcesses st.sort_key st.sort_reverse procs).map (fun p => p.pid)).toFinset := by
  simp only [update_processes]

lemma update_processes_spec (st : TableState) (procs : List ProcessSnapshot) :
    (removalPids (update_processes st procs).2).toFinset
        = st.current_pids \ (procs.map (fun p => p.pid)).toFinset ∧
    (removalPids (update_processes st procs).2).Nodup ∧
    (updatedProcs (update_processes st procs).2).Perm
        (procs.filter (fun p => decide (p.pid ∈ st.current_pids))) ∧
    (insertedProcs (update_processes st procs).2).Perm
        (procs.filter (fun p => !decide (p.pid ∈ st.current_pids))) ∧
    ((update_processes st procs).1).current_pids
        = (procs.map (fun p => p.pid)).toFinset := by
  have hperm := sortProcesses_perm st.sort_key st.sort_reverse procs
  have hpidfin :
      ((sortProcesses st.sort_key st.sort_reverse procs).map
          (fun p => p.pid)).toFinset
        = (procs.map (fun p => p.pid)).toFinset :=
    perm_toFinset (hperm.map _)
  refine ⟨?_, ?_, ?_, ?_, ?_⟩
  · rw [update_processes_ops, removalPids_append, removalPids_map_removal,
      removalPids_of_trace, List.append_nil, Finset.sort_toFinset, hpidfin]
  · rw [update_processes_ops, removalPids_append, removalPids_map_removal,
      removalPids_of_trace, List.append_nil]
    exact Finset.sort_nodup _ _
  · rw [update_processes_ops, updatedProcs_append, updatedProcs_map_removal,
      List.nil_append, updatedProcs_of_trace]
    exact hperm.filter _
  · rw [update_processes_ops, insertedProcs_append, insertedProcs_map_removal,
      List.nil_append, insertedProcs_of_trace]
    exact hperm.filter _
  · rw [update_processes_pids, hpidfin]

lemma pushHistory_length (buf : List (List ℚ)) (x : List ℚ) :
    (pushHistory buf x).length = min (buf.length + 1) 60 := by
  simp [pushHistory]
  omega

lemma pushHistory_eq (buf : List (List ℚ)) (x : List ℚ) :
    pushHistory buf x = (buf ++ [x]).drop (buf.length + 1 - 60) := by
  simp [pushHistory]

lemma foldl_pushHistory (samples : List (List ℚ)) :
    ∀ buf : List (List ℚ), buf.length ≤ 60 →
      List.foldl pushHistory buf samples =
        (buf ++ samples).drop (buf.length + samples.length - 60) := by
  induction samples with
  | nil =>
    intro buf h
    simp only [List.foldl_nil, List.append_nil, List.length_nil, Nat.add_zero]
    have h0 : buf.length - 60 = 0 := by omega
    rw [h0, List.drop_zero]
  | cons x xs ih =>
    intro buf h
    rw [List.foldl_cons, ih (pushHistory buf x) (by rw [pushHistory_length]; omega)]
    rw [pushHistory_eq]
    have ha : buf.length + 1 - 60 ≤ (buf ++ [x]).length := by
      simp
      omega
    rw [← List.drop_append_of_le_length ha, List.drop_drop]
    have hassoc : buf ++ [x] ++ xs = buf ++ x :: xs := by simp
    rw [hassoc]
    congr 1
    simp only [List.length_drop, List.length_append, List.length_cons, List.length_nil]
    omega

lemma collectProcesses_append (a b : List (Except PsutilError ProcInfo)) :
    collectProcesses (a ++ b) = collectProcesses a ++ collectProcesses b := by
  induction a with
  | nil => rfl
  | cons x rest ih => cases x <;> simp [collectProcesses, ih]

lemma collectProcesses_map_ok (l : List ProcInfo) :
    collectProcesses (l.map Except.ok) = l.map buildSnapshot := by
  induction l with
  | nil => rfl
  | cons x rest ih => simp [collectProcesses, ih]

lemma pollStep_queue (m : SystemMonitor) (env : CycleEnv) :
    (m.pollStep env).queue = m.queue ++ [(m.collectSnapshot env).1] :=
  rfl

lemma pollLoop_queue_length (envs : List CycleEnv) :
    ∀ m : SystemMonitor, (m.pollLoop envs).queue.length = m.queue.length + envs.length := by
  induction envs with
  | nil => intro m; simp [SystemMonitor.pollLoop]
  | cons e es ih =>
    intro m
    have hstep : (m.pollLoop (e :: es)) = (m.pollStep e).pollLoop es := rfl
    rw [hstep, ih, pollStep_queue]
    simp
    omega

lemma drainLoop_eq (q : List SystemSnapshot) :
    ∀ acc : Option SystemSnapshot,
      drainLoop acc q = if q.isEmpty then acc else q.getLast? := by
  induction q with
  | nil => intro acc; rfl
  | cons s rest ih =>
    intro acc
    rw [drainLoop, ih (some s)]
    cases rest with
    | nil => simp
    | cons t ts => simp

lemma checkForUpdates_queue (st : AppState) : (checkForUpdates st).queue = [] := by
  unfold checkForUpdates
  split <;> rfl

lemma checkForUpdates_empty (st : AppState) (h : st.queue = []) :
    checkForUpdates st = st := by
  obtain ⟨q, hd, tb⟩ := st
  simp only at h
  subst h
  rfl

/-! ## Claim theorems -/

/-- Claim C3, counterexample: a poll interval of 0.05 supplied at
construction is stored and used as-is — `SystemMonitor.__init__` does not
clamp, so the effective interval is 0.05, not 0.1. -/
theorem C3_counterexample :
    (SystemMonitor.init [] (1/20)).poll_rate = 1/20 ∧
      ¬ (SystemMonitor.init [] (1/20)).poll_rate = 1/10 := by
  constructor
  · rfl
  · intro h
    have : (1/20 : ℚ) = 1/10 := h
    norm_num at this

/-- Claim C3 as amended: a requested poll interval below 0.1 seconds is
clamped to exactly 0.1 when supplied through the `poll_rate` setter, and an
interval of at least 0.1 is stored unchanged; an interval supplied at
construction is stored unclamped, whatever its value. -/
theorem C3_poll_rate_clamp :
    (∀ (m : SystemMonitor) (v : ℚ), v < 1/10 → (m.setPollRate v).poll_rate = 1/10) ∧
    (∀ (m : SystemMonitor) (v : ℚ), 1/10 ≤ v → (m.setPollRate v).poll_rate = v) ∧
    (∀ (q : List SystemSnapshot) (r : ℚ), (SystemMonitor.init q r).poll_rate = r) := by
  refine ⟨fun m v h => ?_, fun m v h => ?_, fun q r => rfl⟩
  · simp only [SystemMonitor.setPollRate]
    exact max_eq_left h.le
  · simp only [SystemMonitor.setPollRate]
    exact max_eq_right h

/-- Witness for the amended C3 theorem at the concrete intervals 0.05
(clamped to 0.1) and 3 (kept). -/
theorem C3_witness :
    ((1:ℚ)/20 < 1/10 ∧ ((SystemMonitor.init [] 2).setPollRate (1/20)).poll_rate = 1/10) ∧
    ((1:ℚ)/10 ≤ 3 ∧ ((SystemMonitor.init [] 2).setPollRate 3).poll_rate = 3) :=
  ⟨⟨by norm_num, C3_poll_rate_clamp.1 _ _ (by norm_num)⟩,
   ⟨by norm_num, C3_poll_rate_clamp.2.1 _ _ (by norm_num)⟩⟩

/-- Claim C7: after any sequence of `k` pushes into the empty CPU history
buffer, the buffer holds exactly the last `min k 60` samples — its length is
`min k 60` (so it never exceeds 60), its contents are the suffix of the
pushed samples (the oldest pushes beyond capacity are the evicted ones,
FIFO), and `get_cpu_history` returns exactly those contents oldest-first. -/
theorem C7_history_buffer (samples : List (List ℚ)) :
    List.foldl pushHistory [] samples = samples.drop (samples.length - 60) ∧
    (List.foldl pushHistory [] samples).length = min samples.length 60 ∧
    SystemMonitor.get_cpu_history
        { SystemMonitor.init [] 2 with cpu_history := List.foldl pushHistory [] samples }
      = samples.drop (samples.length - 60) := by
  have hfold := foldl_pushHistory samples [] (by simp)
  simp only [List.nil_append, List.length_nil, Nat.zero_add] at hfold
  refine ⟨hfold, ?_, hfold⟩
  rw [hfold, List.length_drop]
  omega

/-- Claim C9: the human-readable size formatter tags 500 bytes with B,
2048 with K (value 2), 5242880 with M (value 5), 1073741824 with G
(value 1); and for every non-negative value, a value below 1024 stays in
the current unit while a value of 1024 or more is divided by 1024 and
escalated to the next unit. -/
theorem C9_format_bytes :
    format_bytes 500 = (500, "B") ∧
    format_bytes 2048 = (2, "K") ∧
    format_bytes 5242880 = (5, "M") ∧
    format_bytes 1073741824 = (1, "G") ∧
    (∀ (s : ℚ) (u : String) (us : List String), 0 ≤ s → s < 1024 →
      formatBytesGo (u :: us) s = (s, u)) ∧
    (∀ (s : ℚ) (u : String) (us : List String), 0 ≤ s → 1024 ≤ s →
      formatBytesGo (u :: us) s = formatBytesGo us (s / 1024)) := by
  refine ⟨?_, ?_, ?_, ?_, fun s u us h0 h => ?_, fun s u us h0 h => ?_⟩
  · norm_num [format_bytes, formatBytesGo]
  · norm_num [format_bytes, formatBytesGo]
  · norm_num [format_bytes, formatBytesGo]
  · norm_num [format_bytes, formatBytesGo]
  · rw [formatBytesGo, if_pos h]
  · rw [formatBytesGo, if_neg (not_lt.mpr h)]

/-- Claim C1: a poll cycle in which the per-process query fails for one
process out of N (vanished, access denied, or zombie) while the other N−1
succeed still assembles a SystemSnapshot containing exactly those other N−1
processes, and the worker loop publishes one snapshot per cycle come what
may — collection is a total function, so no exception propagates past the
cycle boundary and the loop always continues to the next cycle. -/
theorem C1_permission_grace :
    (∀ (m : SystemMonitor) (envs : List CycleEnv),
        (m.pollLoop envs).queue.length = m.queue.length + envs.length) ∧
    (∀ (m : SystemMonitor) (env : CycleEnv) (pre post : List ProcInfo) (e : PsutilError),
        ((m.collectSnapshot
            { env with procResults :=
                pre.map Except.ok ++ Except.error e :: post.map Except.ok }).1).processes
          = pre.map buildSnapshot ++ post.map buildSnapshot ∧
        ((m.collectSnapshot
            { env with procResults :=
                pre.map Except.ok ++ Except.error e :: post.map Except.ok }).1).processes.length
            + 1
          = (pre.map Except.ok ++ Except.error e :: post.map Except.ok).length) := by
  refine ⟨fun m envs => pollLoop_queue_length envs m, fun m env pre post e => ?_⟩
  have hp :
      ((m.collectSnapshot
          { env with procResults :=
              pre.map Except.ok ++ Except.error e :: post.map Except.ok }).1).processes
        = pre.map buildSnapshot ++ post.map buildSnapshot := by
    show collectProcesses (pre.map Except.ok ++ Except.error e :: post.map Except.ok)
      = pre.map buildSnapshot ++ post.map buildSnapshot
    rw [collectProcesses_append, collectProcesses_map_ok]
    show pre.map buildSnapshot ++ collectProcesses (post.map Except.ok)
      = pre.map buildSnapshot ++ post.map buildSnapshot
    rw [collectProcesses_map_ok]
  refine ⟨hp, ?_⟩
  rw [hp]
  simp
  omega

/-- Claim C2, counterexample: two producer publishes with no intervening
consumer drain leave two unconsumed snapshots in the channel — the
`queue.Queue` is unbounded and appends, it does not overwrite, so occupancy
exceeds one. -/
theorem C2_counterexample :
    ((SystemMonitor.init [] 2).pollLoop [trivialEnv, trivialEnv]).queue.length = 2 ∧
    ¬ ((SystemMonitor.init [] 2).pollLoop [trivialEnv, trivialEnv]).queue.length ≤ 1 := by
  have h : ((SystemMonitor.init [] 2).pollLoop [trivialEnv, trivialEnv]).queue.length = 2 := rfl
  exact ⟨h, by omega⟩

/-- Claim C2 as amended: the snapshot handoff channel is an unbounded FIFO
queue, not a single slot — each publish appends, growing the occupancy by
one and preserving every earlier unread snapshot unchanged; occupancy is
bounded not by the channel but by the consumer, whose drain removes all
pending snapshots at each tick. -/
theorem C2_unbounded_queue :
    (∀ (m : SystemMonitor) (env : CycleEnv),
        (m.pollStep env).queue.length = m.queue.length + 1 ∧
        (m.pollStep env).queue.take m.queue.length = m.queue) ∧
    (∀ st : AppState, (checkForUpdates st).queue = []) := by
  refine ⟨fun m env => ⟨?_, ?_⟩, checkForUpdates_queue⟩
  · rw [pollStep_queue]
    simp
  · rw [pollStep_queue]
    exact List.take_left _ _

/-- Claim C4: a consumer drain empties the channel and renders exactly the
most recently published snapshot (discarding all older unread ones); a
second drain before any further publish finds the channel empty and leaves
the whole consumer state — header and process table — unchanged. -/
theorem C4_drain_latest (st : AppState) :
    (checkForUpdates st).queue = [] ∧
    (checkForUpdates st).header
      = (if st.queue.isEmpty then st.header else st.queue.getLast?) ∧
    checkForUpdates (checkForUpdates st) = checkForUpdates st := by
  refine ⟨checkForUpdates_queue st, ?_,
    checkForUpdates_empty _ (checkForUpdates_queue st)⟩
  rcases hq : st.queue with _ | ⟨a, rest⟩
  · rw [checkForUpdates_empty st hq]
    simp [hq]
  · unfold checkForUpdates
    rw [hq, drainLoop_eq]
    simp only [List.isEmpty_cons, Bool.false_eq_true, if_false, List.getLast?_cons]
    simp [updateUI]

/-- Claim C6, counterexample: in the state reached when `stop(timeout)`
returns after the timeout elapsed while the worker is still running,
`is_running()` returns false although the worker thread is alive — `stop`
unconditionally clears `_thread`, so the claimed equivalence fails. -/
theorem C6_counterexample :
    stoppedLate.workerAlive = true ∧ stoppedLate.is_running = false ∧
      ¬ (stoppedLate.is_running = true ↔ stoppedLate.workerAlive = true) := by
  refine ⟨rfl, rfl, fun h => ?_⟩
  have : stoppedLate.is_running = true := h.mpr rfl
  simp [stoppedLate, SystemMonitor.stop, SystemMonitor.start, SystemMonitor.init,
    SystemMonitor.is_running] at this

/-- Claim C6 as amended: `isRunning()` returns true only if the worker
thread is alive, and `stop(timeout)` always returns with `isRunning()`
false — it unconditionally clears the thread handle — so after a stop whose
timeout elapsed while the worker was still finishing its cycle,
`isRunning()` reports false even though the worker thread is still alive
(the converse of the claimed equivalence does not hold). -/
theorem C6_is_running (m : SystemMonitor) :
    (m.is_running = true → m.workerAlive = true) ∧
    (∀ joined : Bool, (SystemMonitor.stop joined m).is_running = false) := by
  constructor
  · intro h
    unfold SystemMonitor.is_running at h
    unfold SystemMonitor.workerAlive
    cases hm : m.thread with
    | none => rw [hm] at h; exact absurd h (by simp)
    | some alive =>
      rw [hm] at h
      simp only at h
      simp [h]
  · intro joined
    unfold SystemMonitor.stop
    cases m.thread <;> cases joined <;> rfl

/-- Witness for the amended C6 theorem: a freshly started monitor has its
worker alive, and stopping it with an elapsed timeout reports not
running. -/
theorem C6_witness :
    (SystemMonitor.start (SystemMonitor.init [] 2)).workerAlive = true ∧
    (SystemMonitor.stop false (SystemMonitor.start (SystemMonitor.init [] 2))).is_running
      = false :=
  ⟨(C6_is_running (SystemMonitor.start (SystemMonitor.init [] 2))).1 rfl,
   (C6_is_running (SystemMonitor.start (SystemMonitor.init [] 2))).2 false⟩

/-- Claim C10, counterexample: when the command line is unavailable and the
name attribute is also unavailable, the fallback `info.get("name", "")`
returns the raw `None` name, so the assembled snapshot's `command_line`
field is `None` — not a defined string. -/
theorem C10_counterexample :
    (buildSnapshot blankInfo).command_line = none ∧ (buildSnapshot blankInfo).name = "" :=
  ⟨rfl, rfl⟩

/-- Claim C10 as amended: every field of an assembled ProcessSnapshot gets
the documented default when the underlying data is missing — name and
username become the empty string, status becomes a question mark,
cpu_percent, memory_percent, memory_rss, threads and nice become zero — and
when the command line is empty or unavailable, command_line falls back to
the raw name attribute: that is the process's name whenever the name is
available, but when the name attribute is itself missing the command_line
field is left as the missing value (`None`) rather than a string; that
corner is the only way command_line can be undefined. -/
theorem C10_missing_defaults (info : ProcInfo) :
    (buildSnapshot { info with name := none }).name = "" ∧
    (buildSnapshot { info with username := none }).username = "" ∧
    (buildSnapshot { info with status := none }).status = "?" ∧
    (buildSnapshot { info with cpu_percent := none }).cpu_percent = 0 ∧
    (buildSnapshot { info with memory_percent := none }).memory_percent = 0 ∧
    (buildSnapshot { info with memory_info := none }).memory_rss = 0 ∧
    (buildSnapshot { info with num_threads := none }).threads = 0 ∧
    (buildSnapshot { info with nice := none }).nice = 0 ∧
    (∀ n : String,
      (buildSnapshot { info with cmdline := none, name := some n }).command_line = some n) ∧
    (∀ n : String,
      (buildSnapshot { info with cmdline := some [], name := some n }).command_line = some n) ∧
    ((buildSnapshot info).command_line = none ↔
      (info.cmdline.getD []).isEmpty = true ∧ info.name = none) := by
  refine ⟨rfl, rfl, rfl, rfl, rfl, rfl, rfl, rfl, fun n => rfl, fun n => rfl, ?_⟩
  unfold buildSnapshot
  by_cases hc : (info.cmdline.getD []).isEmpty
  · simp [hc]
  · simp [hc]

/-- Witness for the C9 theorem: both escalation branches at the concrete
values 512 (stays in the current unit) and 4096 (escalates). -/
theorem C9_witness :
    ((0:ℚ) ≤ 512 ∧ (512:ℚ) < 1024 ∧ formatBytesGo ["B"] 512 = (512, "B")) ∧
    ((0:ℚ) ≤ 4096 ∧ (1024:ℚ) ≤ 4096 ∧
      formatBytesGo ["K", "M"] 4096 = formatBytesGo ["M"] (4096 / 1024)) :=
  ⟨⟨by norm_num, by norm_num, C9_format_bytes.2.2.2.2.1 512 "B" [] (by norm_num) (by norm_num)⟩,
   ⟨by norm_num, by norm_num,
    C9_format_bytes.2.2.2.2.2 4096 "K" ["M"] (by norm_num) (by norm_num)⟩⟩

/-- Claim C8: starting from the initial sort key CPU (descending), four
successive cycle calls return MEM, PID, USER, CPU in that order, each time
deriving the direction from the new key (descending exactly for CPU and
MEM); and for every process list, sorting under CPU or MEM yields a
permutation ordered descending by that value, sorting under PID or USER
yields a permutation ordered ascending, the USER ordering comparing
lowercased usernames (case-insensitive). -/
theorem C8_sort_engine :
    (initTable.sort_key = SortKey.CPU ∧ initTable.sort_reverse = true) ∧
    ((cycle_sort initTable).1 = SortKey.MEM ∧
      (cycle_sort initTable).2.sort_key = SortKey.MEM ∧
      (cycle_sort initTable).2.sort_reverse = true) ∧
    ((cycle_sort (cycle_sort initTable).2).1 = SortKey.PID ∧
      (cycle_sort (cycle_sort initTable).2).2.sort_key = SortKey.PID ∧
      (cycle_sort (cycle_sort initTable).2).2.sort_reverse = false) ∧
    ((cycle_sort (cycle_sort (cycle_sort initTable).2).2).1 = SortKey.USER ∧
      (cycle_sort (cycle_sort (cycle_sort initTable).2).2).2.sort_key = SortKey.USER ∧
      (cycle_sort (cycle_sort (cycle_sort initTable).2).2).2.sort_reverse = false) ∧
    ((cycle_sort (cycle_sort (cycle_sort (cycle_sort initTable).2).2).2).1 = SortKey.CPU ∧
      (cycle_sort (cycle_sort (cycle_sort (cycle_sort initTable).2).2).2).2.sort_key
        = SortKey.CPU ∧
      (cycle_sort (cycle_sort (cycle_sort (cycle_sort initTable).2).2).2).2.sort_reverse
        = true) ∧
    (∀ ps : List ProcessSnapshot,
      ((sortProcesses SortKey.CPU true ps).Perm ps ∧
        (sortProcesses SortKey.CPU true ps).Pairwise
          (fun a b => b.cpu_percent ≤ a.cpu_percent)) ∧
      ((sortProcesses SortKey.MEM true ps).Perm ps ∧
        (sortProcesses SortKey.MEM true ps).Pairwise
          (fun a b => b.memory_percent ≤ a.memory_percent)) ∧
      ((sortProcesses SortKey.PID false ps).Perm ps ∧
        (sortProcesses SortKey.PID false ps).Pairwise
          (fun a b => a.pid ≤ b.pid)) ∧
      ((sortProcesses SortKey.USER false ps).Perm ps ∧
        (sortProcesses SortKey.USER false ps).Pairwise
          (fun a b => a.username.toLower ≤ b.username.toLower))) := by
  refine ⟨⟨rfl, rfl⟩, ⟨rfl, rfl, rfl⟩, ⟨rfl, rfl, rfl⟩, ⟨rfl, rfl, rfl⟩, ⟨rfl, rfl, rfl⟩,
    fun ps => ⟨⟨sortProcesses_perm _ _ ps, ?_⟩, ⟨sortProcesses_perm _ _ ps, ?_⟩,
      ⟨sortProcesses_perm _ _ ps, ?_⟩, ⟨sortProcesses_perm _ _ ps, ?_⟩⟩⟩
  · exact (sortProcesses_sorted SortKey.CPU true ps).imp
      (fun h => of_decide_eq_true (by simpa [sortKeyLe] using h))
  · exact (sortProcesses_sorted SortKey.MEM true ps).imp
      (fun h => of_decide_eq_true (by simpa [sortKeyLe] using h))
  · exact (sortProcesses_sorted SortKey.PID false ps).imp
      (fun h => of_decide_eq_true (by simpa [sortKeyLe] using h))
  · exact (sortProcesses_sorted SortKey.USER false ps).imp
      (fun h => of_decide_eq_true (by simpa [sortKeyLe] using h))

/-- Claim C5: reconciliation removes exactly the rows whose PIDs are in the
previous tracked set P but not in the incoming PID set N, emits an update
(not an insertion) for every incoming process whose PID is in P, emits an
insertion for every incoming process whose PID is not in P, and afterwards
the tracked PID set equals N; in particular reconciling pids 100,200 then
200 yields exactly one removal (100) and zero insertions, and then
reconciling 200,300 yields zero removals and one insertion (300). -/
theorem C5_reconciliation :
    (∀ (st : TableState) (procs : List ProcessSnapshot),
      (removalPids (update_processes st procs).2).toFinset
          = st.current_pids \ (procs.map (fun p => p.pid)).toFinset ∧
      (removalPids (update_processes st procs).2).Nodup ∧
      (updatedProcs (update_processes st procs).2).Perm
          (procs.filter (fun p => decide (p.pid ∈ st.current_pids))) ∧
      (insertedProcs (update_processes st procs).2).Perm
          (procs.filter (fun p => !decide (p.pid ∈ st.current_pids))) ∧
      ((update_processes st procs).1).current_pids
          = (procs.map (fun p => p.pid)).toFinset) ∧
    (removalPids (update_processes tableA [proc200]).2 = [100] ∧
      insertedProcs (update_processes tableA [proc200]).2 = [] ∧
      (updatedProcs (update_processes tableA [proc200]).2).map (fun p => p.pid)
        = [200] ∧
      ((update_processes tableA [proc200]).1).current_pids = ({200} : Finset Int) ∧
      removalPids
          (update_processes (update_processes tableA [proc200]).1
            [proc200, proc300]).2 = [] ∧
      (insertedProcs
          (update_processes (update_processes tableA [proc200]).1
            [proc200, proc300]).2).map (fun p => p.pid) = [300] ∧
      ((update_processes (update_processes tableA [proc200]).1
          [proc200, proc300]).1).current_pids = ({200, 300} : Finset Int)) := by
  refine ⟨update_processes_spec, ?_⟩
  have hA := update_processes_spec initTable [proc100, proc200]
  have h0 : tableA.current_pids = ({100, 200} : Finset Int) := by
    show ((update_processes initTable [proc100, proc200]).1).current_pids = _
    rw [hA.2.2.2.2]
    decide
  have hB := update_processes_spec tableA [proc200]
  have hBrem : removalPids (update_processes tableA [proc200]).2 = [100] := by
    apply List.perm_singleton.mp
    apply List.perm_of_nodup_nodup_toFinset_eq hB.2.1 (by decide)
    rw [hB.1, h0]
    decide
  have hBins : insertedProcs (update_processes tableA [proc200]).2 = [] := by
    have h := hB.2.2.2.1
    rw [h0] at h
    have heq :
        [proc200].filter (fun p => !decide (p.pid ∈ ({100, 200} : Finset Int))) = [] := by
      decide
    rw [heq] at h
    exact h.eq_nil
  have hBupd :
      (updatedProcs (update_processes tableA [proc200]).2).map (fun p => p.pid)
        = [200] := by
    have h := hB.2.2.1
    rw [h0] at h
    have heq :
        [proc200].filter (fun p => decide (p.pid ∈ ({100, 200} : Finset Int)))
          = [proc200] := by
      decide
    rw [heq] at h
    rw [List.perm_singleton.mp h]
    decide
  have hBpids :
      ((update_processes tableA [proc200]).1).current_pids = ({200} : Finset Int) := by
    rw [hB.2.2.2.2]
    decide
  have hC :=
    update_processes_spec (update_processes tableA [proc200]).1 [proc200, proc300]
  have hCrem :
      removalPids
          (update_processes (update_processes tableA [proc200]).1
            [proc200, proc300]).2 = [] := by
    apply (List.toFinset_eq_empty_iff _).mp
    rw [hC.1, hBpids]
    decide
  have hCins :
      (insertedProcs
          (update_processes (update_processes tableA [proc200]).1
            [proc200, proc300]).2).map (fun p => p.pid) = [300] := by
    have h := hC.2.2.2.1
    rw [hBpids] at h
    have heq :
        [proc200, proc300].filter (fun p => !decide (p.pid ∈ ({200} : Finset Int)))
          = [proc300] := by
      decide
    rw [heq] at h
    rw [List.perm_singleton.mp h]
    decide
  have hCpids :
      ((update_processes (update_processes tableA [proc200]).1
          [proc200, proc300]).1).current_pids = ({200, 300} : Finset Int) := by
    rw [hC.2.2.2.2]
    decide
  exact ⟨hBrem, hBins, hBupd, hBpids, hCrem, hCins, hCpids⟩

end Pytop
